import Mathlib

/-!
Shallow embedding of `src/main.rs` of the script-list utility: a CLI tool
that loads a `package.json` manifest, filters and sorts its `scripts`
mapping, and renders it as a table, a list, or JSON.

Modelling conventions:
* Rust `String` is Lean `String`; Rust byte length `s.len()` is modelled by
  `byteLen` (the sum of the UTF-8 sizes of the characters).
* `HashMap` contents are modelled as association lists; since the iteration
  order of a Rust `HashMap` is unspecified (randomized per process), any
  place the code iterates a `HashMap` is modelled by an explicit
  order parameter (a permutation oracle).
* Terminal colouring by the `colored` crate is dropped: output is modelled
  as the plain text (what the crate emits when stdout is not a tty).
* Printing is modelled as the list of lines written to stdout / stderr;
  `std::process::exit` and panics are modelled as explicit outcomes.
-/

/-- JSON values, modelling the `serde_json` data model. Objects keep their
fields in textual order as an association list. -/
inductive Json where
  | null : Json
  | bool (b : Bool) : Json
  | num (n : Int) : Json
  | str (s : String) : Json
  | arr (elems : List Json) : Json
  | obj (fields : List (String × Json)) : Json
deriving Repr

/-- The `PackageJson` struct of `main.rs`: optional `name`, a `scripts`
map (association list with the manifest's key order; `#[serde(default)]`
makes it empty when absent) and optional `description`. -/
structure PackageJson where
  name : Option String
  scripts : List (String × String)
  description : Option String
deriving DecidableEq, Repr

/-- The output format CLI enum of `main.rs`. -/
inductive OutputFormat where
  | table : OutputFormat
  | list : OutputFormat
  | json : OutputFormat
deriving DecidableEq, Repr

/-- The parsed CLI flags relevant after loading: `names_only`, the optional
filter pattern and the output format (`path` is consumed by the loader). -/
structure Cli where
  names_only : Bool
  filter : Option String
  format : OutputFormat
deriving DecidableEq, Repr

/-- Stand-in for Rust `str::to_lowercase` restricted to ASCII. The library
function is an external, full-Unicode case mapping that this development
does not reproduce; this stand-in agrees with it on ASCII strings and only
instantiates the pipeline, while the filtering characterization is proven
for every lowercasing function (see `filter_retains_iff`), hence in
particular for the library's. -/
def lowercase (s : String) : String :=
  (s.toList.map Char.toLower).asString

/-- Model of Rust `str::contains` for string patterns: `pat` occurs as a
contiguous substring of `s`. -/
def strContains (s pat : String) : Bool :=
  decide (pat.toList <:+: s.toList)

/-- The filter step of `main` (lines 64-68), with the external
`str::to_lowercase` abstracted as the oracle `lower`: when a pattern is
given it is lowercased once and each entry is retained iff its lowercased
name contains the pattern; with no pattern the list is kept unchanged. -/
def applyFilterWith (lower : String → String) (filter : Option String)
    (scripts : List (String × String)) : List (String × String) :=
  match filter with
  | none => scripts
  | some pattern =>
    let pattern := lower pattern
    scripts.filter (fun e => strContains (lower e.1) pattern)

/-- The filter step instantiated with the ASCII lowercase stand-in. -/
def applyFilter : Option String → List (String × String) →
    List (String × String) :=
  applyFilterWith lowercase

/-- Lexicographic "less or equal" on codepoint sequences. Rust's
`String::cmp` is lexicographic on UTF-8 bytes, which coincides with
lexicographic order on codepoints. -/
def charListLe : List Char → List Char → Bool
  | [], _ => true
  | _ :: _, [] => false
  | a :: as, b :: bs =>
    if a.toNat < b.toNat then true
    else if b.toNat < a.toNat then false
    else charListLe as bs

/-- The comparison `|a, b| a.0.cmp(&b.0)` of `main.rs` line 71: order the
entries by their names. -/
def nameLe (a b : String × String) : Bool :=
  charListLe a.1.toList b.1.toList

/-- The name order as a proposition, for sortedness statements. -/
def nameOrder (a b : String × String) : Prop :=
  nameLe a b = true

instance : DecidableRel nameOrder :=
  fun a b => instDecidableEqBool (nameLe a b) true

/-- The sort step of `main` (line 71): `scripts.sort_by(|a, b| a.0.cmp(&b.0))`,
a stable sort of the entries by name ascending, modelled by a stable
insertion sort (on the unique-keyed lists produced by the loader every
stable sort agrees). -/
def sortScripts (scripts : List (String × String)) : List (String × String) :=
  scripts.insertionSort nameOrder

/-- The script-selector pipeline of `main`: filter, then sort by name. -/
def selectScripts (filter : Option String) (scripts : List (String × String)) :
    List (String × String) :=
  sortScripts (applyFilter filter scripts)

/-- Rust byte length `s.len()`: the number of UTF-8 bytes of the string. -/
def byteLen (s : String) : Nat :=
  s.toList.foldl (fun n c => n + c.utf8Size) 0

/-- Model of the Rust byte-slice `&s[..n]` restricted to a character list:
`some` of the first characters spanning exactly `n` bytes, or `none` when
`n` is out of range or falls strictly inside a multi-byte character, in
which case the Rust slice panics. -/
def takeBytes : List Char → Nat → Option (List Char)
  | _, 0 => some []
  | [], _ + 1 => none
  | c :: cs, n + 1 =>
    if c.utf8Size ≤ n + 1 then (takeBytes cs (n + 1 - c.utf8Size)).map (c :: ·)
    else none

/-- Model of the Rust byte-slice `&s[..n]` on strings; `none` is a panic. -/
def byteTake (s : String) (n : Nat) : Option String :=
  (takeBytes s.toList n).map List.asString

/-- The command cell of a table row (`main.rs` lines 147-151): commands of
more than 50 bytes are cut to their first 47 bytes followed by `...`;
shorter commands are shown unchanged. The byte cut panics (`none`) when
byte 47 is not a character boundary. -/
def displayCmd (command : String) : Option String :=
  if byteLen command > 50 then (byteTake command 47).map (· ++ "...")
  else some command

/-- Rust's `{:<width$}` padding: pad on the right with spaces up to `w`
characters. -/
def padRight (s : String) (w : Nat) : String :=
  s ++ (List.replicate (w - s.toList.length) ' ').asString

/-- The name-column width of the table (`main.rs` lines 138-139): the
maximum byte length of the names, but at least 10. -/
def nameWidth (scripts : List (String × String)) : Nat :=
  Nat.max ((scripts.map (fun e => byteLen e.1)).max?.getD 10) 10

/-- The separator rule of the table (`main.rs` line 143). -/
def sepLine (w : Nat) : String :=
  (List.replicate (w + 2 + 50) '─').asString

/-- The count footer of the table (`main.rs` line 156). -/
def countLine (n : Nat) : String :=
  "ℹ️ Found " ++ toString n ++ " script(s)"

/-- The `print_table` renderer (`main.rs` lines 129-157); output is the
list of stdout lines, `none` when a row panics on command truncation. With
`names_only` it prints just the names and returns before any decoration. -/
def renderTable (scripts : List (String × String)) (names_only : Bool) :
    Option (List String) :=
  if names_only then some (scripts.map (fun e => e.1))
  else
    let w := nameWidth scripts
    (scripts.mapM (fun e => (displayCmd e.2).map
        (fun c => padRight e.1 w ++ "  " ++ c))).map
      (fun rows =>
        (padRight "Script" w ++ "  " ++ "Command") :: sepLine w :: rows
          ++ ["", countLine scripts.length])

/-- The `print_list` renderer (`main.rs` lines 159-167): one line per
entry, the bare name with `names_only` and `name: command` otherwise. -/
def renderList (scripts : List (String × String)) (names_only : Bool) :
    List String :=
  scripts.map (fun e => if names_only then e.1 else e.1 ++ ": " ++ e.2)

/-- JSON string escaping as performed by the serializer on keys/values. -/
def jsonEscapeChar (c : Char) : String :=
  if c = '"' then "\\\""
  else if c = '\\' then "\\\\"
  else if c = '\n' then "\\n"
  else if c = '\t' then "\\t"
  else if c = '\r' then "\\r"
  else String.singleton c

/-- Escape a whole string for inclusion in JSON text. -/
def jsonEscape (s : String) : String :=
  String.join (s.toList.map jsonEscapeChar)

/-- A JSON string literal. -/
def jsonQuote (s : String) : String :=
  "\"" ++ jsonEscape s ++ "\""

/-- Model of `serde_json::to_string_pretty` on a string-to-string map
whose iteration yields `pairs` in order: a pretty-printed JSON object with
two-space indentation, keys in iteration order. -/
def jsonPretty (pairs : List (String × String)) : String :=
  match pairs with
  | [] => "\x7b\x7d"
  | _ =>
    "\x7b\n" ++ String.intercalate ",\n"
        (pairs.map (fun p => "  " ++ jsonQuote p.1 ++ ": " ++ jsonQuote p.2))
      ++ "\n\x7d"

/-- The header block of `print_header` (`main.rs` lines 118-127): a blank
line, the manifest name when present, the description when present, and a
closing blank line. -/
def headerLines (package : PackageJson) : List String :=
  [""]
    ++ (match package.name with | some n => ["📦 " ++ n] | none => [])
    ++ (match package.description with | some d => [d] | none => [])
    ++ [""]

/-- The warning printed by `main` (line 58) when the manifest has no
scripts. It goes through `println!`, i.e. to standard output. -/
def warnLine : String :=
  "⚠️  No scripts found in package.json"

/-- What one program run writes and how it exits. -/
structure RunResult where
  stdout : List String
  stderr : List String
  exitCode : Nat
deriving DecidableEq, Repr

/-- The post-load part of `main` (`main.rs` lines 57-83): the early exit on
an empty scripts map, the filter and sort steps, the header block for every
format unless `names_only`, and the format dispatch. `hashOrder` is the
iteration-order oracle of the `HashMap` built by `print_json` (a Rust
`HashMap` iterates in an unspecified, per-process randomized order, so any
permutation is a possible behaviour); `none` is a panic. -/
def runMain (hashOrder : List (String × String) → List (String × String))
    (cli : Cli) (package : PackageJson) : Option RunResult :=
  if package.scripts.isEmpty then
    some ⟨[warnLine], [], 0⟩
  else
    let scripts := selectScripts cli.filter package.scripts
    let header := if cli.names_only then [] else headerLines package
    match cli.format with
    | OutputFormat.table =>
      (renderTable scripts cli.names_only).map (fun out => ⟨header ++ out, [], 0⟩)
    | OutputFormat.list =>
      some ⟨header ++ renderList scripts cli.names_only, [], 0⟩
    | OutputFormat.json =>
      some ⟨header ++ [jsonPretty (hashOrder scripts)], [], 0⟩

/-- Outcome of `fs::read_to_string` in `read_package_json`
(`main.rs` lines 89-111): the file is missing, some other I/O error
occurred, or the whole file content was read. -/
inductive ReadResult where
  | notFound : ReadResult
  | ioError (cause : String) : ReadResult
  | ok (content : String) : ReadResult
deriving DecidableEq, Repr

/-- The current working directory as consulted by `read_package_json`:
its base name (`file_name`, absent for paths like `/`) and its displayed
full path. -/
structure Cwd where
  fileName : Option String
  display : String
deriving DecidableEq, Repr

/-- The recoverable errors `read_package_json` returns to its caller: a
read failure other than not-found (context `Failed to read <path>`), or a
parse/deserialization failure (context `Failed to parse <path> as JSON`),
each carrying the path and the underlying cause. -/
inductive LoadError where
  | readError (path : String) (cause : String) : LoadError
  | parseError (path : String) (cause : String) : LoadError
deriving DecidableEq, Repr

/-- How a call to `read_package_json` ends: a direct process termination
(`std::process::exit`) with its stderr lines, a returned error, or a
manifest. -/
inductive LoadOutcome where
  | fatalExit (code : Nat) (stderrLines : List String) : LoadOutcome
  | error (e : LoadError) : LoadOutcome
  | ok (package : PackageJson) : LoadOutcome
deriving DecidableEq, Repr

/-- The diagnostic block printed to stderr on a missing file
(`main.rs` lines 98-108): blank line, the cwd base name (or `unknown`),
blank line, the notice, the indented cwd full path (or empty), blank
line. -/
def notFoundLines (cwd : Option Cwd) : List String :=
  ["", (cwd.bind Cwd.fileName).getD "unknown", "",
    "No package.json file found:",
    "  " ++ (cwd.map Cwd.display).getD "", ""]

/-- Deserialize an `Option<String>` struct field: `null` and strings are
accepted, anything else is a type error. -/
def asOptString : Json → Except String (Option String)
  | Json.null => Except.ok none
  | Json.str s => Except.ok (some s)
  | _ => Except.error "invalid type: expected a string"

/-- Deserialize one entry of the `scripts` map: the value must be a
string. -/
def asStringEntry : String × Json → Except String (String × String)
  | (k, Json.str v) => Except.ok (k, v)
  | _ => Except.error "invalid type: expected a string"

/-- One `HashMap::insert` during map deserialization: a repeated key
overwrites the stored value, a new key is appended. -/
def insertKeyValue (m : List (String × String)) (kv : String × String) :
    List (String × String) :=
  if m.any (fun e => e.1 == kv.1) then
    m.map (fun e => if e.1 == kv.1 then (e.1, kv.2) else e)
  else m ++ [kv]

/-- Content of the deserialized `HashMap<String, String>`: the entries are
inserted in textual order, so a later duplicate key silently overwrites an
earlier one (no error), as serde's map deserializer does. The map is
represented by this association list; the real map's iteration order is
unspecified and is supplied downstream by the order oracles. -/
def collectStringMap (entries : List (String × String)) :
    List (String × String) :=
  entries.foldl insertKeyValue []

/-- Deserialize the `HashMap<String, String>` field: the value must be an
object all of whose values are strings; the first non-string value is the
error, and duplicate keys keep the last value. -/
def asStringMap : Json → Except String (List (String × String))
  | Json.obj fs => (fs.mapM asStringEntry).map collectStringMap
  | _ => Except.error "invalid type: expected a map"

/-- The field loop of the serde-derived `PackageJson` deserializer: the
object's fields are visited in textual order; a known field already seen
is a `duplicate field` error (checked before its value); a known field's
value is deserialized at its first occurrence; unknown fields are
ignored. The accumulators hold the field values seen so far; at the end
the missing fields take their defaults (`None`, empty map, `None`). -/
def deserializeFields : List (String × Json) → Option (Option String) →
    Option (List (String × String)) → Option (Option String) →
    Except String PackageJson
  | [], nacc, sacc, dacc =>
    Except.ok ⟨nacc.getD none, sacc.getD [], dacc.getD none⟩
  | (k, v) :: rest, nacc, sacc, dacc =>
    if k = "name" then
      match nacc with
      | some _ => Except.error "duplicate field `name`"
      | none => do
        let n ← asOptString v
        deserializeFields rest (some n) sacc dacc
    else if k = "scripts" then
      match sacc with
      | some _ => Except.error "duplicate field `scripts`"
      | none => do
        let s ← asStringMap v
        deserializeFields rest nacc (some s) dacc
    else if k = "description" then
      match dacc with
      | some _ => Except.error "duplicate field `description`"
      | none => do
        let d ← asOptString v
        deserializeFields rest nacc sacc (some d)
    else deserializeFields rest nacc sacc dacc

/-- Deserialization of the `PackageJson` struct (`main.rs` lines 39-46)
following the serde derive: the input must be an object; `name` is
`Option<String>` (absent or `null` become `None`); `scripts` has
`#[serde(default)]`, so an absent field becomes the empty map;
`description` likewise defaults to `None`; a duplicated known field is an
error; unknown fields are ignored; any present known field of the wrong
type is an error. -/
def deserializePackageJson : Json → Except String PackageJson
  | Json.obj fields => deserializeFields fields none none none
  | _ => Except.error "invalid type: expected struct PackageJson"

/-- The `read_package_json` function (`main.rs` lines 88-116). `parse` is
the oracle for the syntax layer of `serde_json::from_str` (an external
crate): it turns the file text into a JSON value or a syntax diagnostic.
A missing file prints the diagnostic block and exits the process with
status 1 without consulting the content; any other read error returns a
`ReadError`; a syntax or shape failure returns a `ParseError`. -/
def readPackageJson (parse : String → Except String Json) (cwd : Option Cwd)
    (path : String) (read : ReadResult) : LoadOutcome :=
  match read with
  | ReadResult.notFound => LoadOutcome.fatalExit 1 (notFoundLines cwd)
  | ReadResult.ioError cause => LoadOutcome.error (LoadError.readError path cause)
  | ReadResult.ok content =>
    match parse content with
    | Except.error e => LoadOutcome.error (LoadError.parseError path e)
    | Except.ok j =>
      match deserializePackageJson j with
      | Except.error e => LoadOutcome.error (LoadError.parseError path e)
      | Except.ok package => LoadOutcome.ok package

theorem charListLe_total : ∀ l₁ l₂ : List Char,
    charListLe l₁ l₂ = true ∨ charListLe l₂ l₁ = true
  | [], _ => Or.inl rfl
  | _ :: _, [] => Or.inr rfl
  | a :: as, b :: bs => by
    by_cases hab : a.toNat < b.toNat
    · left
      simp [charListLe, hab]
    · by_cases hba : b.toNat < a.toNat
      · right
        simp [charListLe, hba]
      · rcases charListLe_total as bs with h | h
        · left
          simp [charListLe, hab, hba, h]
        · right
          simp [charListLe, hab, hba, h]

theorem charListLe_trans : ∀ l₁ l₂ l₃ : List Char,
    charListLe l₁ l₂ = true → charListLe l₂ l₃ = true → charListLe l₁ l₃ = true
  | [], _, _, _, _ => rfl
  | _ :: _, [], _, h, _ => by simp [charListLe] at h
  | _ :: _, _ :: _, [], _, h => by simp [charListLe] at h
  | a :: as, b :: bs, c :: cs, h₁, h₂ => by
    simp only [charListLe] at h₁ h₂ ⊢
    by_cases hab : a.toNat < b.toNat
    · by_cases hbc : b.toNat < c.toNat
      · simp [Nat.lt_trans hab hbc]
      · by_cases hcb : c.toNat < b.toNat
        · simp [hbc, hcb] at h₂
        · have hbc' : b.toNat = c.toNat := Nat.le_antisymm (Nat.le_of_not_lt hcb)
            (Nat.le_of_not_lt hbc)
          simp [hbc' ▸ hab]
    · by_cases hba : b.toNat < a.toNat
      · simp [hab, hba] at h₁
      · have hab' : a.toNat = b.toNat := Nat.le_antisymm (Nat.le_of_not_lt hba)
          (Nat.le_of_not_lt hab)
        by_cases hbc : b.toNat < c.toNat
        · simp [hab' ▸ hbc]
        · by_cases hcb : c.toNat < b.toNat
          · simp [hbc, hcb] at h₂
          · simp [hab, hba] at h₁
            simp [hbc, hcb] at h₂
            simp only [hab', hbc, hcb, if_neg, ite_self]
            simp [hab' ▸ hab, hab' ▸ hba, charListLe_trans as bs cs h₁ h₂]

/-- C6: an entry survives the filter step iff its lowercased name contains
the lowercased pattern as a contiguous substring, and an absent pattern
retains all entries. The external `str::to_lowercase` is abstracted: the
characterization is proven for every lowercasing function `lower`, so it
holds in particular for the library's full-Unicode one; the last conjunct
records that the pipeline's `applyFilter` is exactly this filter
instantiated with a lowercasing function. -/
theorem filter_retains_iff :
    ∀ (lower : String → String) (scripts : List (String × String)) (p : String),
      (∀ e : String × String,
          e ∈ applyFilterWith lower (some p) scripts ↔
            e ∈ scripts ∧ (lower p).toList <:+: (lower e.1).toList)
      ∧ applyFilterWith lower none scripts = scripts
      ∧ applyFilter (some p) scripts = applyFilterWith lowercase (some p) scripts := by
  intro lower scripts p
  refine ⟨?_, rfl, rfl⟩
  intro e
  simp [applyFilterWith, List.mem_filter, strContains]

/-- C8: the selected entries are sorted by name ascending, and the sort is
idempotent. -/
theorem select_sorted_and_sort_idempotent :
    (∀ (f : Option String) (scripts : List (String × String)),
        List.Sorted nameOrder (selectScripts f scripts))
    ∧ ∀ l : List (String × String), sortScripts (sortScripts l) = sortScripts l := by
  letI : IsTotal (String × String) nameOrder :=
    ⟨fun a b => charListLe_total a.1.toList b.1.toList⟩
  letI : IsTrans (String × String) nameOrder :=
    ⟨fun a b c => charListLe_trans a.1.toList b.1.toList c.1.toList⟩
  constructor
  · intro f scripts
    exact List.sorted_insertionSort nameOrder (applyFilter f scripts)
  · intro l
    exact (List.sorted_insertionSort nameOrder l).insertionSort_eq

/-- C1 counterexample: with `names_only` set and `json` format the program
still prints the command text (`tsc` here), because `print_json` is called
without the flag (`main.rs` line 81) and serializes names and commands. -/
theorem names_only_json_emits_command_cex :
    runMain id ⟨true, none, OutputFormat.json⟩ ⟨none, [("build", "tsc")], none⟩ =
        some ⟨[jsonPretty [("build", "tsc")]], [], 0⟩
      ∧ strContains (jsonPretty [("build", "tsc")]) "tsc" = true := by
  exact ⟨by decide, by decide⟩

/-- C1 (amended): with `names_only` set, table and list output is exactly
the selected script names, one line per visible entry and no command
text, while json format ignores the flag. -/
theorem names_only_table_list_names_only :
    ∀ (ho : List (String × String) → List (String × String))
      (package : PackageJson) (f : Option String),
      package.scripts.isEmpty = false →
      runMain ho ⟨true, f, OutputFormat.table⟩ package =
          some ⟨(selectScripts f package.scripts).map (fun e => e.1), [], 0⟩
        ∧ runMain ho ⟨true, f, OutputFormat.list⟩ package =
          some ⟨(selectScripts f package.scripts).map (fun e => e.1), [], 0⟩ := by
  intro ho package f h
  constructor
  · simp [runMain, h, renderTable]
  · simp [runMain, h, renderList]

/-- Witness for the amended C1 at a concrete manifest. -/
theorem names_only_table_list_names_only_witness :
    runMain id ⟨true, none, OutputFormat.table⟩ ⟨none, [("build", "tsc")], none⟩ =
        some ⟨(selectScripts none [("build", "tsc")]).map (fun e => e.1), [], 0⟩
      ∧ runMain id ⟨true, none, OutputFormat.list⟩ ⟨none, [("build", "tsc")], none⟩ =
        some ⟨(selectScripts none [("build", "tsc")]).map (fun e => e.1), [], 0⟩ :=
  names_only_table_list_names_only id ⟨none, [("build", "tsc")], none⟩ none rfl

/-- C2 counterexample: under the reversed iteration order (one possible
`HashMap` order) the json keys come out as b, a although the sorted
sequence is a, b; the rendered text differs from the sorted-order
rendering, so the key order does not equal the sorted order. -/
theorem json_key_order_unsorted_cex :
    selectScripts none [("a", "x"), ("b", "y")] = [("a", "x"), ("b", "y")]
      ∧ (List.reverse [("a", "x"), ("b", "y")]).Perm
          ([("a", "x"), ("b", "y")] : List (String × String))
      ∧ runMain List.reverse ⟨true, none, OutputFormat.json⟩
          ⟨none, [("a", "x"), ("b", "y")], none⟩ =
          some ⟨[jsonPretty [("b", "y"), ("a", "x")]], [], 0⟩
      ∧ jsonPretty [("b", "y"), ("a", "x")] ≠ jsonPretty [("a", "x"), ("b", "y")] := by
  exact ⟨by decide, by decide, by decide, by decide⟩

/-- C2 (amended): json rendering writes one pretty-printed JSON object of
the selected (name, command) pairs to stdout, with the pairs in the hash
map's unspecified iteration order, some permutation of the sorted
sequence. -/
theorem json_renders_selected_map_any_order :
    ∀ (ho : List (String × String) → List (String × String)),
      (∀ l, (ho l).Perm l) →
      ∀ (package : PackageJson) (f : Option String) (no : Bool),
        package.scripts.isEmpty = false →
        runMain ho ⟨no, f, OutputFormat.json⟩ package =
            some ⟨(if no then [] else headerLines package)
                ++ [jsonPretty (ho (selectScripts f package.scripts))], [], 0⟩
          ∧ (ho (selectScripts f package.scripts)).Perm
              (selectScripts f package.scripts) := by
  intro ho hho package f no h
  exact ⟨by simp [runMain, h], hho _⟩

/-- Witness for the amended C2 with the identity iteration order. -/
theorem json_renders_selected_map_any_order_witness :
    runMain id ⟨true, none, OutputFormat.json⟩ ⟨none, [("b", "y"), ("a", "x")], none⟩ =
        some ⟨(if true then [] else headerLines ⟨none, [("b", "y"), ("a", "x")], none⟩)
            ++ [jsonPretty (id (selectScripts none [("b", "y"), ("a", "x")]))], [], 0⟩
      ∧ (id (selectScripts none [("b", "y"), ("a", "x")])).Perm
          (selectScripts none [("b", "y"), ("a", "x")]) :=
  json_renders_selected_map_any_order id (fun l => List.Perm.refl l)
    ⟨none, [("b", "y"), ("a", "x")], none⟩ none true rfl

/-- C3 counterexample: in list format with `names_only` false the program
prints the manifest name/description header block before the entry lines
(`main.rs` lines 74-76 run for every format). -/
theorem list_format_header_block_cex :
    runMain id ⟨false, none, OutputFormat.list⟩
        ⟨some "demo", [("build", "tsc")], some "a demo package"⟩ =
        some ⟨["", "📦 demo", "a demo package", "", "build: tsc"], [], 0⟩
      ∧ ["", "📦 demo", "a demo package", "", "build: tsc"] ≠ ["build: tsc"] := by
  exact ⟨by decide, by decide⟩

/-- C3 (amended): the list renderer itself emits exactly one
`name: command` line per entry with no decoration, but the top-level flow
prepends the manifest header block to stdout whenever `names_only` is
false. -/
theorem list_lines_with_header_block :
    (∀ scripts : List (String × String),
        renderList scripts false = scripts.map (fun e => e.1 ++ ": " ++ e.2))
    ∧ ∀ (ho : List (String × String) → List (String × String))
        (package : PackageJson) (f : Option String),
        package.scripts.isEmpty = false →
        runMain ho ⟨false, f, OutputFormat.list⟩ package =
          some ⟨headerLines package
              ++ renderList (selectScripts f package.scripts) false, [], 0⟩ := by
  constructor
  · intro scripts
    simp [renderList]
  · intro ho package f h
    simp [runMain, h]

/-- Witness for the amended C3 at a concrete manifest. -/
theorem list_lines_with_header_block_witness :
    runMain id ⟨false, none, OutputFormat.list⟩
        ⟨some "demo", [("build", "tsc")], some "d"⟩ =
      some ⟨headerLines ⟨some "demo", [("build", "tsc")], some "d"⟩
          ++ renderList (selectScripts none [("build", "tsc")]) false, [], 0⟩ :=
  list_lines_with_header_block.2 id ⟨some "demo", [("build", "tsc")], some "d"⟩ none rfl

/-- C4 counterexample: on an empty scripts map the single warning line goes
to standard output (`println!`, `main.rs` line 58); standard error stays
empty, contrary to the claim. -/
theorem empty_scripts_warning_stdout_cex :
    runMain id ⟨false, none, OutputFormat.table⟩ ⟨none, [], none⟩ =
        some ⟨[warnLine], [], 0⟩
      ∧ (runMain id ⟨false, none, OutputFormat.table⟩ ⟨none, [], none⟩).map
          (fun r => r.stderr.length) = some 0 := by
  exact ⟨by decide, by decide⟩

/-- C4 (amended): on an empty scripts map the program prints exactly one
warning line to standard output, nothing to standard error, and exits
with status 0 before filtering, sorting or rendering: the result is the
same for every filter, format, `names_only` value and hash order, and no
renderer output reaches stdout. -/
theorem empty_scripts_early_success_exit :
    ∀ (ho : List (String × String) → List (String × String)) (cli : Cli)
      (package : PackageJson),
      package.scripts = [] →
      runMain ho cli package = some ⟨[warnLine], [], 0⟩ := by
  intro ho cli package h
  simp [runMain, h]

/-- Witness for the amended C4 at a concrete empty manifest. -/
theorem empty_scripts_early_success_exit_witness :
    runMain id ⟨true, some "x", OutputFormat.json⟩ ⟨some "demo", [], none⟩ =
      some ⟨[warnLine], [], 0⟩ :=
  empty_scripts_early_success_exit id ⟨true, some "x", OutputFormat.json⟩
    ⟨some "demo", [], none⟩ rfl

/-- C5: a missing manifest file makes the loader print the diagnostic block
to stderr, with the current working directory's base name and its full
path, and terminate with exit status 1, identically for every parse
oracle (so no JSON parse is attempted); every other read failure is
returned to the caller as a `ReadError` carrying the path and cause. -/
theorem loader_missing_file_and_read_error :
    (∀ (parse : String → Except String Json) (c : Cwd) (base path : String),
        c.fileName = some base →
        readPackageJson parse (some c) path ReadResult.notFound =
          LoadOutcome.fatalExit 1
            ["", base, "", "No package.json file found:", "  " ++ c.display, ""])
    ∧ ∀ (parse : String → Except String Json) (cwd : Option Cwd)
        (path cause : String),
        readPackageJson parse cwd path (ReadResult.ioError cause) =
          LoadOutcome.error (LoadError.readError path cause) := by
  constructor
  · intro parse c base path hb
    simp [readPackageJson, notFoundLines, hb]
  · intro parse cwd path cause
    rfl

/-- Witness for C5 at a concrete working directory and parse oracle. -/
theorem loader_missing_file_and_read_error_witness :
    readPackageJson (fun _ => Except.error "boom")
        (some ⟨some "proj", "/home/user/proj"⟩) "package.json"
        ReadResult.notFound =
      LoadOutcome.fatalExit 1
        ["", "proj", "", "No package.json file found:", "  /home/user/proj", ""] :=
  loader_missing_file_and_read_error.1 (fun _ => Except.error "boom")
    ⟨some "proj", "/home/user/proj"⟩ "proj" "package.json" rfl

/-- C7 counterexample: this command is 53 bytes long, but byte 47 falls
inside the two-byte character é, so instead of showing a truncated
command the table renderer panics, while the list renderer shows the
command in full. -/
theorem table_truncation_panics_midchar_cex :
    byteLen "aaaaaaaaaaaaaaaaaaaaaaaaaaaaaaaaaaaaaaaaaaaaaaéxxxxx" = 53
      ∧ renderTable
          [("dev", "aaaaaaaaaaaaaaaaaaaaaaaaaaaaaaaaaaaaaaaaaaaaaaéxxxxx")] false = none
      ∧ renderList
          [("dev", "aaaaaaaaaaaaaaaaaaaaaaaaaaaaaaaaaaaaaaaaaaaaaaéxxxxx")] false =
          ["dev: aaaaaaaaaaaaaaaaaaaaaaaaaaaaaaaaaaaaaaaaaaaaaaéxxxxx"] := by
  exact ⟨by decide, by decide, by decide⟩

/-- C7 (amended): for every command of more than 50 bytes whose first 47
bytes end on a character boundary, table format shows the 47-byte cut
followed by the `...` marker while list and json formats render the
untruncated command; when byte 47 is not a character boundary the table
renderer panics instead of truncating. -/
theorem table_truncates_list_json_untruncated :
    ∀ (name command pre : String),
      byteLen command > 50 →
      byteTake command 47 = some pre →
      displayCmd command = some (pre ++ "...")
        ∧ renderTable [(name, command)] false =
            some [padRight "Script" (nameWidth [(name, command)]) ++ "  " ++ "Command",
              sepLine (nameWidth [(name, command)]),
              padRight name (nameWidth [(name, command)]) ++ "  " ++ (pre ++ "..."),
              "", countLine 1]
        ∧ renderList [(name, command)] false = [name ++ ": " ++ command]
        ∧ jsonPretty [(name, command)] =
            "\x7b\n" ++ ("  " ++ jsonQuote name ++ ": " ++ jsonQuote command) ++ "\n\x7d" := by
  intro name command pre h1 h2
  have hd : displayCmd command = some (pre ++ "...") := by
    simp [displayCmd, h1, h2]
  refine ⟨hd, ?_, rfl, rfl⟩
  simp only [renderTable, Bool.false_eq_true, if_false, List.mapM_cons, List.mapM_nil, hd,
    Option.map_some, Option.bind_some, Option.bind_none, bind, Option.bind, pure, Option.map]
  rfl

/-- Witness for the amended C7 at a 53-byte all-ASCII command. -/
theorem table_truncates_list_json_untruncated_witness :
    displayCmd "xxxxxxxxxxxxxxxxxxxxxxxxxxxxxxxxxxxxxxxxxxxxxxxxxxxxx" =
        some ("xxxxxxxxxxxxxxxxxxxxxxxxxxxxxxxxxxxxxxxxxxxxxxx" ++ "...")
      ∧ renderList [("dev", "xxxxxxxxxxxxxxxxxxxxxxxxxxxxxxxxxxxxxxxxxxxxxxxxxxxxx")]
          false =
          ["dev: " ++ "xxxxxxxxxxxxxxxxxxxxxxxxxxxxxxxxxxxxxxxxxxxxxxxxxxxxx"] :=
  ⟨(table_truncates_list_json_untruncated "dev"
      "xxxxxxxxxxxxxxxxxxxxxxxxxxxxxxxxxxxxxxxxxxxxxxxxxxxxx"
      "xxxxxxxxxxxxxxxxxxxxxxxxxxxxxxxxxxxxxxxxxxxxxxx" (by decide) (by decide)).1,
   (table_truncates_list_json_untruncated "dev"
      "xxxxxxxxxxxxxxxxxxxxxxxxxxxxxxxxxxxxxxxxxxxxxxxxxxxxx"
      "xxxxxxxxxxxxxxxxxxxxxxxxxxxxxxxxxxxxxxxxxxxxxxx" (by decide) (by decide)).2.2.1⟩

/-- C10: table rendering is not total: for this entry list, whose command
is 52 bytes long with byte 47 inside the two-byte character ß, the code
evaluates `&command[..47]` off a character boundary and panics. -/
theorem table_render_panics_on_midchar_boundary :
    byteLen "bbbbbbbbbbbbbbbbbbbbbbbbbbbbbbbbbbbbbbbbbbbbbbßzzzz" = 52
      ∧ byteTake "bbbbbbbbbbbbbbbbbbbbbbbbbbbbbbbbbbbbbbbbbbbbbbßzzzz" 47 = none
      ∧ renderTable
          [("build", "bbbbbbbbbbbbbbbbbbbbbbbbbbbbbbbbbbbbbbbbbbbbbbßzzzz")] false =
          none := by
  exact ⟨by decide, by decide, by decide⟩
